import Mathlib

/-!
Shallow embedding of the verification engine of the AI Alcohol Label
Verification App (`backend/utils/verification.py`).

Strings are modelled as `List Char`.  Python character classes and case
conversion are modelled on ASCII code points (the label texts and form values
the engine is written for are ASCII).  Python floats are modelled as rationals
(`ℚ`); the decimal literals appearing on labels are exactly representable.
Each verifier returns a `Verdict` carrying the `field` and `status` string of
the dict built by the Python code; the human-readable `message` entry of that
dict is not modelled (no property below depends on it).
-/

namespace LabelApp

/-- Python regex `\s`: the ASCII whitespace characters (space, tab, newline,
carriage return, vertical tab, form feed). -/
def pyIsSpace (c : Char) : Bool :=
  decide (c = ' ' ∨ c = '\t' ∨ c = '\n' ∨ c = '\r' ∨ c = '\x0b' ∨ c = '\x0c')

/-- Python regex `\d` (ASCII digits `0`-`9`, by code point). -/
def isDigitChar (c : Char) : Bool :=
  decide (48 ≤ c.toNat ∧ c.toNat ≤ 57)

/-- Python `str.lower()` on ASCII: code points 65-90 (`A`-`Z`) shift to 97-122. -/
def pyToLower (c : Char) : Char :=
  if 65 ≤ c.toNat ∧ c.toNat ≤ 90 then Char.ofNat (c.toNat + 32) else c

/-- Python `str.upper()` on ASCII: code points 97-122 (`a`-`z`) shift to 65-90. -/
def pyToUpper (c : Char) : Char :=
  if 97 ≤ c.toNat ∧ c.toNat ≤ 122 then Char.ofNat (c.toNat - 32) else c

/-- The character class kept by the removal step of `normalize_text`
(the negated regex class of lowercase letters, digits, whitespace, percent,
dot, hyphen and slash): lowercase letters (97-122), digits (48-57),
whitespace, and the four symbols percent, dot, hyphen, slash. -/
def isKeptChar (c : Char) : Bool :=
  (decide (97 ≤ c.toNat ∧ c.toNat ≤ 122)) || (decide (48 ≤ c.toNat ∧ c.toNat ≤ 57)) ||
    pyIsSpace c || decide (c = '%' ∨ c = '.' ∨ c = '-' ∨ c = '/')

/-- One pass of `re.sub(r'\s+', ' ', text)`: every maximal run of whitespace
becomes a single space.  The boolean records whether the previous character
was part of a whitespace run. -/
def collapseAux : Bool → List Char → List Char
  | _, [] => []
  | prev, c :: cs =>
    if pyIsSpace c then
      if prev then collapseAux true cs else ' ' :: collapseAux true cs
    else c :: collapseAux false cs

/-- `re.sub(r'\s+', ' ', text)`. -/
def collapse (s : List Char) : List Char := collapseAux false s

/-- Python `str.strip()`: drop leading and trailing whitespace. -/
def pyStrip (s : List Char) : List Char :=
  ((s.dropWhile pyIsSpace).reverse.dropWhile pyIsSpace).reverse

/-- `normalize_text` from `verification.py`: empty guard, lowercase, collapse
whitespace runs, remove characters outside the kept class, strip. -/
def normalize_text (s : List Char) : List Char :=
  if s = [] then []
  else pyStrip (List.filter isKeptChar (collapse (s.map pyToLower)))

/-- Python substring test `needle in haystack` on strings. -/
def isSubstring (needle : List Char) : List Char → Bool
  | [] => needle.isEmpty
  | c :: cs => needle.isPrefixOf (c :: cs) || isSubstring needle cs

theorem isSubstring_spec (needle haystack : List Char) :
    isSubstring needle haystack = true ↔ needle <:+: haystack := by
  induction haystack with
  | nil =>
    simp [isSubstring, List.isEmpty_iff]
  | cons c cs ih =>
    simp [isSubstring, List.infix_cons_iff, ih, List.isPrefixOf_iff_prefix]

/-- Python `str.split()` (no separator): split on whitespace runs, dropping
empty pieces.  The accumulator carries the current word reversed. -/
def splitAux : List Char → List Char → List (List Char)
  | [], acc => if acc.isEmpty then [] else [acc.reverse]
  | c :: cs, acc =>
    if pyIsSpace c then
      if acc.isEmpty then splitAux cs [] else acc.reverse :: splitAux cs []
    else splitAux cs (c :: acc)

/-- Python `str.split()`. -/
def pySplit (s : List Char) : List (List Char) := splitAux s []

/-- Length of the longest common prefix of two character lists. -/
def commonLen : List Char → List Char → Nat
  | a :: as, b :: bs => if a = b then commonLen as bs + 1 else 0
  | _, _ => 0

/-- Length of the matching run `a[i:], b[j:]` restricted to the half-open
windows ending at `ahi` and `bhi`. -/
def matchLenAt (a b : List Char) (i j ahi bhi : Nat) : Nat :=
  commonLen ((a.take ahi).drop i) ((b.take bhi).drop j)

/-- `difflib.SequenceMatcher.find_longest_match` on `a[alo:ahi]`, `b[blo:bhi]`
(no junk: the matcher is built with `isjunk=None` and the compared strings are
far below the 200-character autojunk threshold).  Returns `(i, j, k)`: the
longest matching block, ties resolved to the smallest `i`, then smallest `j`,
exactly as difflib's scan order does. -/
def longestMatch (a b : List Char) (alo ahi blo bhi : Nat) : Nat × Nat × Nat :=
  (List.range' alo (ahi - alo)).foldl
    (fun best i =>
      (List.range' blo (bhi - blo)).foldl
        (fun best j =>
          let k := matchLenAt a b i j ahi bhi
          if best.2.2 < k then (i, j, k) else best)
        best)
    (alo, blo, 0)

/-- Total size of the matching blocks of `difflib.SequenceMatcher`
(`get_matching_blocks`): recursively split around the longest match.  The
`fuel` argument only bounds the recursion depth; every branch strictly
shrinks `(ahi - alo) + (bhi - blo)`, so any fuel of at least that quantity
plus one computes the true value. -/
def matchingSum (a b : List Char) : Nat → Nat → Nat → Nat → Nat → Nat
  | 0, _, _, _, _ => 0
  | fuel + 1, alo, ahi, blo, bhi =>
    let m := longestMatch a b alo ahi blo bhi
    if m.2.2 = 0 then 0
    else
      matchingSum a b fuel alo m.1 blo m.2.1 + m.2.2 +
        matchingSum a b fuel (m.1 + m.2.2) ahi (m.2.1 + m.2.2) bhi

/-- Exact subtraction on `ℚ`, written with `mkRat` (kernel-computable; equal
to `a - b`, see `qSub_eq`). -/
def qSub (a b : ℚ) : ℚ :=
  mkRat (a.num * b.den - b.num * a.den) (a.den * b.den)

/-- Python `abs` on exact rationals (kernel-computable; equal to `|a|`, see
`qAbs_eq`). -/
def qAbs (a : ℚ) : ℚ := if a < 0 then -a else a

theorem qSub_eq (a b : ℚ) : qSub a b = a - b := by
  have ha : (a.den : ℚ) ≠ 0 := Nat.cast_ne_zero.mpr a.den_nz
  have hb : (b.den : ℚ) ≠ 0 := Nat.cast_ne_zero.mpr b.den_nz
  rw [qSub, Rat.mkRat_eq_div]
  conv_rhs => rw [← Rat.num_div_den a, ← Rat.num_div_den b]
  rw [div_sub_div _ _ ha hb]
  push_cast
  ring

theorem qAbs_eq (a : ℚ) : qAbs a = |a| := by
  rw [qAbs]
  rcases lt_or_le a 0 with h | h
  · rw [if_pos h, abs_of_neg h]
  · rw [if_neg (not_lt.mpr h), abs_of_nonneg h]

/-- `difflib.SequenceMatcher(None, t1, t2).ratio()`: twice the number of
matched characters over the total length (1 when both strings are empty). -/
def ratioOf (t1 t2 : List Char) : ℚ :=
  let total := t1.length + t2.length
  if total = 0 then 1
  else mkRat (2 * matchingSum t1 t2 (total + 1) 0 t1.length 0 t2.length) total

/-- `fuzzy_match` from `verification.py`: sequence-matcher ratio at least the
threshold.  (The Python default threshold 0.8 is never used: every caller
passes a threshold explicitly.) -/
def fuzzy_match (text1 text2 : List Char) (threshold : ℚ) : Bool :=
  decide (threshold ≤ ratioOf text1 text2)

/-- `contains_text` from `verification.py`: normalize both strings, test exact
substring containment, then (when `fuzzy` is set) slide a window of
`needle`-many words over the haystack words and fuzzy-compare each
space-joined phrase against the needle.  `(words.length + 1) - needle_len` in
`Nat` equals Python's `max(0, len(words) - needle_len + 1)`, the number of
iterations of `range(len(words) - needle_len + 1)`. -/
def contains_text (haystack needle : List Char) (fuzzy : Bool) (threshold : ℚ) : Bool :=
  let haystack_norm := normalize_text haystack
  let needle_norm := normalize_text needle
  if isSubstring needle_norm haystack_norm then true
  else if fuzzy then
    let words := pySplit haystack_norm
    let needle_words := pySplit needle_norm
    let needle_len := needle_words.length
    (List.range (words.length + 1 - needle_len)).any fun i =>
      fuzzy_match (List.intercalate [' '] ((words.drop i).take needle_len))
        needle_norm threshold
  else false

/-- Value of a digit string (most significant first). -/
def digitsToNat (ds : List Char) : Nat :=
  ds.foldl (fun acc c => 10 * acc + (c.toNat - 48)) 0

/-- Greedy match of the regex `\d+\.?\d*` at the start of `s`: a maximal
nonempty digit run, then an optional dot followed by a maximal digit run.
Returns the captured characters and the number of characters consumed.
(For this pattern followed by a character-class tail, the greedy maximal-munch
parse succeeds exactly when some backtracking parse does, so this is faithful
to Python's backtracking engine.) -/
def numTok (s : List Char) : Option (List Char × Nat) :=
  let d1 := s.takeWhile isDigitChar
  if d1.isEmpty then none
  else
    match s.drop d1.length with
    | '.' :: rest =>
      let d2 := rest.takeWhile isDigitChar
      some (d1 ++ '.' :: d2, d1.length + 1 + d2.length)
    | _ => some (d1, d1.length)

/-- Exact rational value of a capture of `\d+\.?\d*` (Python `float(...)` on
such captures never raises: the shape guarantees a valid decimal literal). -/
def capToRat (cap : List Char) : ℚ :=
  let ip := cap.takeWhile isDigitChar
  match cap.drop ip.length with
  | '.' :: frac => mkRat (digitsToNat ip * 10 ^ frac.length + digitsToNat frac) (10 ^ frac.length)
  | _ => mkRat (digitsToNat ip) 1

/-- `re.findall`: walk the string left to right; at each position try the
pattern matcher; on a match, record the capture and resume after the match
(Python advances at least one character on the zero-width edge case, which
our patterns never produce since each consumes at least one character). -/
def scanAllAux {α : Type} (pat : List Char → Option (α × Nat)) : Nat → List Char → List α
  | 0, _ => []
  | _, [] => []
  | fuel + 1, c :: cs =>
    match pat (c :: cs) with
    | some (cap, len) => cap :: scanAllAux pat fuel ((c :: cs).drop (max len 1))
    | none => scanAllAux pat fuel cs

/-- `re.findall` over the whole string.  The fuel argument of the auxiliary
only bounds the recursion depth; every step consumes at least one character,
so `s.length` fuel always runs the scan to completion. -/
def scanAll {α : Type} (pat : List Char → Option (α × Nat)) (s : List Char) : List α :=
  scanAllAux pat s.length s

/-- Match `\s*` then the literal `lit` at the start of `s`; return consumed
length.  (Shrinking the greedy whitespace run can never help: it would leave
a whitespace character where the literal must start.) -/
def afterWsLit (lit : List Char) (s : List Char) : Option Nat :=
  let w := s.takeWhile pyIsSpace
  if lit.isPrefixOf (s.drop w.length) then some (w.length + lit.length) else none

/-- Regex `(\d+\.?\d*)\s*LIT` at the start of the string. -/
def patNumThenLit (lit : List Char) (s : List Char) : Option (List Char × Nat) :=
  match numTok s with
  | none => none
  | some (cap, len) =>
    match afterWsLit lit (s.drop len) with
    | none => none
    | some extra => some (cap, len + extra)

/-- Regex `LIT CLS* (\d+\.?\d*)` at the start of the string, where `CLS` is a
character class (shrinking the greedy class run can never expose a digit). -/
def patLitThenNum (lit : List Char) (cls : Char → Bool) (s : List Char) :
    Option (List Char × Nat) :=
  if lit.isPrefixOf s then
    let rest := s.drop lit.length
    let run := rest.takeWhile cls
    match numTok (rest.drop run.length) with
    | none => none
    | some (cap, len) => some (cap, lit.length + run.length + len)
  else none

/-- The five `percentage_patterns` of `verify_alcohol_content`, in source
order, as position matchers over the lower-cased text. -/
def percentagePats : List (List Char → Option (List Char × Nat)) :=
  [patNumThenLit ['%'],
   patNumThenLit "percent".data,
   patLitThenNum "abv".data (fun c => c = ':' || pyIsSpace c),
   patLitThenNum "alcohol".data (fun c => c = ':' || pyIsSpace c),
   patLitThenNum "alc".data (fun c => c = '.' || c = ':' || pyIsSpace c)]

/-- `found_percentages` of `verify_alcohol_content`: run all five patterns
over the lower-cased text, keep the values in `[0, 100]`, and deduplicate
(`list(set(...))`; set order is irrelevant to every property below). -/
def foundPercentages (extracted_text : List Char) : List ℚ :=
  let text_lower := extracted_text.map pyToLower
  ((percentagePats.map fun p => (scanAll p text_lower).map capToRat).flatten.filter
    fun q => decide (0 ≤ q ∧ q ≤ 100)).dedup

/-- Python `float(form_abv)` modelled on decimal literals: surrounding
whitespace, an optional sign, a digit string with optional fractional part (at
least one digit overall), and an optional integer exponent.  Returns `none`
exactly when Python raises `ValueError` (special forms such as `inf`, `nan`
and digit-group underscores are outside the label domain and not modelled). -/
def pyFloat (s : List Char) : Option ℚ :=
  let t := pyStrip s
  let sgn : Int := if t.head? = some '-' then -1 else 1
  let t1 := if t.head? = some '-' ∨ t.head? = some '+' then t.drop 1 else t
  let ip := t1.takeWhile isDigitChar
  let r1 := t1.drop ip.length
  let fr := match r1 with
    | '.' :: r => some (r.takeWhile isDigitChar, r.drop (r.takeWhile isDigitChar).length)
    | _ => none
  let fp := (fr.map Prod.fst).getD []
  let r2 := (fr.map Prod.snd).getD r1
  if ip.isEmpty ∧ fp.isEmpty then none
  else
    let mant : Int := sgn * (digitsToNat ip * 10 ^ fp.length + digitsToNat fp)
    match r2 with
    | [] => some (mkRat mant (10 ^ fp.length))
    | e :: r3 =>
      if e = 'e' ∨ e = 'E' then
        let eneg : Bool := r3.head? = some '-'
        let r4 := if r3.head? = some '-' ∨ r3.head? = some '+' then r3.drop 1 else r3
        let ed := r4.takeWhile isDigitChar
        if ed.isEmpty ∨ ¬(r4.drop ed.length).isEmpty then none
        else if eneg then some (mkRat mant (10 ^ fp.length * 10 ^ digitsToNat ed))
        else some (mkRat (mant * 10 ^ digitsToNat ed) (10 ^ fp.length))
      else none

/-- The verdict dict built by each verifier.  `field` and `status` are the
exact string literals of the source; the human-readable `message` entry is
not modelled. -/
structure Verdict where
  field : String
  status : String
deriving DecidableEq, Repr

/-- `verify_brand_name`: fuzzy containment at threshold 0.85. -/
def verify_brand_name (form_brand extracted_text : List Char) : Verdict :=
  if contains_text extracted_text form_brand true (mkRat 17 20) then
    ⟨"Brand Name", "match"⟩
  else
    ⟨"Brand Name", "mismatch"⟩

/-- `verify_product_type`: fuzzy containment at threshold 0.75; on failure,
when the form value has more than two words, a partial-credit count of the
words longer than three characters that occur in the normalized text. -/
def verify_product_type (form_type extracted_text : List Char) : Verdict :=
  if contains_text extracted_text form_type true (mkRat 3 4) then
    ⟨"Product Class/Type", "match"⟩
  else
    let words := pySplit (form_type.map pyToLower)
    if 2 < words.length then
      let key_words_found := words.countP fun word =>
        decide (3 < word.length) && isSubstring word (normalize_text extracted_text)
      if words.length / 2 ≤ key_words_found then ⟨"Product Class/Type", "match"⟩
      else ⟨"Product Class/Type", "mismatch"⟩
    else ⟨"Product Class/Type", "mismatch"⟩

/-- `verify_alcohol_content`: parse the form value as a float (`not_found` on
failure — the Python `except ValueError` branch), collect the percentages
found in the text, and compare with absolute tolerance 0.5. -/
def verify_alcohol_content (form_abv extracted_text : List Char) : Verdict :=
  match pyFloat form_abv with
  | none => ⟨"Alcohol Content", "not_found"⟩
  | some form_abv_float =>
    let found_percentages := foundPercentages extracted_text
    if found_percentages.any (fun p => decide (qAbs (qSub form_abv_float p) ≤ mkRat 1 2)) then
      ⟨"Alcohol Content", "match"⟩
    else if found_percentages.isEmpty then ⟨"Alcohol Content", "not_found"⟩
    else ⟨"Alcohol Content", "mismatch"⟩

/-- First match of the regex of `verify_net_contents` for the form value
(`re.search` of a number followed by optional whitespace and a letter run):
scan left to right, and at each position try number, `\s*`, `[a-z]+`.
Returns the parsed number and the unit letters. -/
def searchNumUnit : List Char → Option (ℚ × List Char)
  | [] => none
  | c :: cs =>
    match numTok (c :: cs) with
    | some (cap, len) =>
      let rest := (c :: cs).drop len
      let w := rest.takeWhile pyIsSpace
      let letters := (rest.drop w.length).takeWhile fun ch =>
        decide (97 ≤ ch.toNat ∧ ch.toNat ≤ 122)
      if letters.isEmpty then searchNumUnit cs else some (capToRat cap, letters)
    | none => searchNumUnit cs

/-- Match a unit alternative written as literal chunks separated by `\s*`
(covers `fl\s*oz` and `fluid\s*ounce`); returns the matched text. -/
def matchChunks : List (List Char) → List Char → Option (List Char)
  | [], _ => some []
  | [chunk], s => if chunk.isPrefixOf s then some chunk else none
  | chunk :: rest, s =>
    if chunk.isPrefixOf s then
      let s1 := s.drop chunk.length
      let w := s1.takeWhile pyIsSpace
      match matchChunks rest (s1.drop w.length) with
      | some m => some (chunk ++ w ++ m)
      | none => none
    else none

/-- One `volume_patterns` regex: `(\d+\.?\d*)\s*(ALT1|ALT2|...)`, where each
alternative is a chunk list.  Python's alternation takes the first
alternative that matches.  Returns the two capture groups and the length. -/
def volPat (alts : List (List (List Char))) (s : List Char) :
    Option ((List Char × List Char) × Nat) :=
  match numTok s with
  | none => none
  | some (cap, len) =>
    let rest := s.drop len
    let w := rest.takeWhile pyIsSpace
    match alts.findSome? (fun alt => matchChunks alt (rest.drop w.length)) with
    | none => none
    | some unit => some ((cap, unit), len + w.length + unit.length)

/-- The five `volume_patterns` of `verify_net_contents`, in source order,
with their spelling-variant alternatives. -/
def volumeAlts : List (List (List (List Char))) :=
  [[["ml".data], ["milliliter".data], ["millilitre".data]],
   [["l".data], ["liter".data], ["litre".data]],
   [["oz".data], ["ounce".data]],
   [["fl".data, "oz".data], ["fluid".data, "ounce".data]],
   [["cl".data], ["centiliter".data]]]

/-- All `(number, unit)` candidates extracted from the lower-cased text by the
five volume patterns, with the unit's spaces removed (`.replace(' ', '')`).
The Python `float(match[0])` never raises on these captures. -/
def volumeCandidates (text_lower : List Char) : List (ℚ × List Char) :=
  (volumeAlts.map fun alts =>
    (scanAll (volPat alts) text_lower).map fun cu =>
      (capToRat cu.1, cu.2.filter fun ch => ch ≠ ' ')).flatten

/-- `verify_net_contents`: skipped (`None`) for an empty form value; direct
normalized-substring check; then numeric/unit reconciliation with unit
containment either way and absolute difference strictly below 1. -/
def verify_net_contents (form_contents extracted_text : List Char) : Option Verdict :=
  if form_contents.isEmpty then none
  else
    let form_normalized := normalize_text form_contents
    if isSubstring form_normalized (normalize_text extracted_text) then
      some ⟨"Net Contents", "match"⟩
    else
      match searchNumUnit form_normalized with
      | some nu =>
        if (volumeCandidates (extracted_text.map pyToLower)).any (fun fu =>
            (nu.2 == fu.2 || isSubstring nu.2 fu.2 || isSubstring fu.2 nu.2)
              && decide (qAbs (qSub nu.1 fu.1) < mkRat 1 1)) then
          some ⟨"Net Contents", "match"⟩
        else some ⟨"Net Contents", "not_found"⟩
      | none => some ⟨"Net Contents", "not_found"⟩

/-- `GOVERNMENT_WARNING_KEYWORDS` from the source, in order. -/
def GOVERNMENT_WARNING_KEYWORDS : List (List Char) :=
  ["GOVERNMENT WARNING".data,
   "SURGEON GENERAL".data,
   "ACCORDING TO THE SURGEON GENERAL".data,
   "WOMEN SHOULD NOT DRINK".data,
   "ALCOHOLIC BEVERAGES DURING PREGNANCY".data,
   "CONSUMPTION OF ALCOHOLIC BEVERAGES".data,
   "IMPAIRS YOUR ABILITY".data]

/-- `verify_government_warning`: upper-case the text, require the literal
phrase, then count keyword phrases present. -/
def verify_government_warning (extracted_text : List Char) : Verdict :=
  let text_upper := extracted_text.map pyToUpper
  if isSubstring "GOVERNMENT WARNING".data text_upper then
    if 2 ≤ GOVERNMENT_WARNING_KEYWORDS.countP (fun k => isSubstring k text_upper) then
      ⟨"Government Warning", "match"⟩
    else ⟨"Government Warning", "warning"⟩
  else ⟨"Government Warning", "not_found"⟩

/-- The `form_data` dict.  Python's falsy test `form_data.get(key)` treats a
missing key (`None`) and the empty string alike, so both are modelled as the
empty list. -/
structure FormData where
  brand_name : List Char
  product_type : List Char
  alcohol_content : List Char
  net_contents : List Char
deriving Repr

/-- `verify_label_data`: append the verdicts of the guarded brand, type and
alcohol verifiers, the optional net-contents verdict, and the government
warning verdict, in source order. -/
def verify_label_data (form_data : FormData) (extracted_text : List Char) : List Verdict :=
  (if form_data.brand_name.isEmpty then []
   else [verify_brand_name form_data.brand_name extracted_text]) ++
  (if form_data.product_type.isEmpty then []
   else [verify_product_type form_data.product_type extracted_text]) ++
  (if form_data.alcohol_content.isEmpty then []
   else [verify_alcohol_content form_data.alcohol_content extracted_text]) ++
  (match verify_net_contents form_data.net_contents extracted_text with
   | some v => [v]
   | none => []) ++
  [verify_government_warning extracted_text]

end LabelApp

namespace LabelApp

example : normalize_text "  Hello,   WORLD! %.-/ ".data = "hello world %.-/".data := by decide

example : normalize_text "a ! b".data = "a  b".data := by decide

example : normalize_text (normalize_text "a ! b".data) = "a b".data := by decide

example : pySplit "  foo bar  baz ".data = ["foo".data, "bar".data, "baz".data] := by decide

example : isSubstring "lo wo".data "hello world".data = true := by decide

example : ratioOf "abcd".data "bcde".data = mkRat 3 4 := by decide

example : ratioOf "abab".data "bab".data = mkRat 6 7 := by decide

example : contains_text "The OLD TOM label".data "old tom".data true (mkRat 4 5) = true := by decide

set_option maxRecDepth 20000 in
example : contains_text "old tam distillery".data "old tom".data true (mkRat 4 5) = true := by decide

set_option maxRecDepth 20000 in
example : contains_text "something else".data "old tom".data true (mkRat 4 5) = false := by decide

example : pyFloat "45".data = some (mkRat 45 1) := by decide

example : pyFloat " -4.25 ".data = some (mkRat (-17) 4) := by decide

example : pyFloat "1.5e2".data = some (mkRat 150 1) := by decide

example : pyFloat "abc".data = none := by decide

example : pyFloat "".data = none := by decide

example : foundPercentages "45% Alc./Vol.".data = [mkRat 45 1] := by decide

example : foundPercentages "ABV: 40 and 7.5 percent and alc 12".data
    = [mkRat 15 2, mkRat 40 1, mkRat 12 1] := by decide

example : foundPercentages "123% and 45.5%".data = [mkRat 91 2] := by decide

example : (verify_alcohol_content "45".data "45% Alc./Vol.".data).status = "match" := by decide

example : (verify_alcohol_content "45".data "40% Alc./Vol.".data).status = "mismatch" := by decide

example : (verify_alcohol_content "abc".data "45% Alc./Vol.".data).status = "not_found" := by decide

example : verify_net_contents "750 mL".data "750ml".data = some ⟨"Net Contents", "match"⟩ := by
  decide

example : verify_net_contents "750 mL".data "NET: 25.4 FL OZ".data
    = some ⟨"Net Contents", "not_found"⟩ := by decide

example : verify_net_contents "".data "750ml".data = none := by decide

example : verify_net_contents "750 mL".data "contains 750.3 ml liquid".data
    = some ⟨"Net Contents", "match"⟩ := by decide

example : (verify_government_warning "GOVERNMENT WARNING bla".data).status = "warning" := by
  decide

example : (verify_government_warning "GOVERNMENT WARNING: surgeon general says".data).status
    = "match" := by decide

example : (verify_government_warning "no warning here".data).status = "not_found" := by decide

example : (verify_label_data ⟨"a".data, "b".data, "1".data, "2 ml".data⟩ []).map Verdict.field
    = ["Brand Name", "Product Class/Type", "Alcohol Content", "Net Contents",
       "Government Warning"] := by decide

example : (verify_label_data ⟨"a".data, "b".data, "1".data, []⟩ []).map Verdict.field
    = ["Brand Name", "Product Class/Type", "Alcohol Content", "Government Warning"] := by decide

lemma verify_brand_name_field (f t : List Char) :
    (verify_brand_name f t).field = "Brand Name" := by
  unfold verify_brand_name; split <;> rfl

lemma verify_product_type_field (f t : List Char) :
    (verify_product_type f t).field = "Product Class/Type" := by
  unfold verify_product_type
  split
  · rfl
  · dsimp only
    split
    · split <;> rfl
    · rfl

lemma verify_alcohol_content_field (f t : List Char) :
    (verify_alcohol_content f t).field = "Alcohol Content" := by
  unfold verify_alcohol_content
  split
  · rfl
  · dsimp only
    split
    · rfl
    · split <;> rfl

lemma verify_government_warning_field (t : List Char) :
    (verify_government_warning t).field = "Government Warning" := by
  unfold verify_government_warning
  dsimp only
  split
  · split <;> rfl
  · rfl

lemma net_none (t : List Char) : verify_net_contents [] t = none := rfl

lemma net_some_of_ne (f t : List Char) (h : f.isEmpty = false) :
    ∃ s, verify_net_contents f t = some ⟨"Net Contents", s⟩
      ∧ (s = "match" ∨ s = "not_found") := by
  unfold verify_net_contents
  rw [h]
  simp only [Bool.false_eq_true, if_false]
  split
  · exact ⟨"match", rfl, Or.inl rfl⟩
  · split
    · split
      · exact ⟨"match", rfl, Or.inl rfl⟩
      · exact ⟨"not_found", rfl, Or.inr rfl⟩
    · exact ⟨"not_found", rfl, Or.inr rfl⟩

/-- The field names of the orchestrator's verdict list, as a function of
which form values are empty. -/
lemma label_fields (fd : FormData) (text : List Char) :
    (verify_label_data fd text).map Verdict.field =
      (if fd.brand_name.isEmpty then [] else ["Brand Name"]) ++
      (if fd.product_type.isEmpty then [] else ["Product Class/Type"]) ++
      (if fd.alcohol_content.isEmpty then [] else ["Alcohol Content"]) ++
      (if fd.net_contents.isEmpty then [] else ["Net Contents"]) ++
      ["Government Warning"] := by
  unfold verify_label_data
  cases hn : fd.net_contents.isEmpty
  case false =>
    obtain ⟨s, hs, -⟩ := net_some_of_ne fd.net_contents text hn
    rw [hs]
    simp only [hn]
    split_ifs <;>
      first
        | contradiction
        | simp [verify_brand_name_field, verify_product_type_field,
            verify_alcohol_content_field, verify_government_warning_field]
  case true =>
    rw [List.isEmpty_iff.mp hn, net_none]
    split_ifs <;>
      first
        | contradiction
        | simp [verify_brand_name_field, verify_product_type_field,
            verify_alcohol_content_field, verify_government_warning_field]

end LabelApp

namespace LabelApp

/-- C7: `contains_text` returns true whenever the normalized needle is a
literal substring of the normalized haystack, for every fuzzy flag and every
threshold; in particular the empty needle is contained in every haystack. -/
theorem C7_contains_text_substring :
    (∀ hay ndl (fz : Bool) (thr : ℚ),
        isSubstring (normalize_text ndl) (normalize_text hay) = true →
        contains_text hay ndl fz thr = true)
  ∧ (∀ hay (fz : Bool) (thr : ℚ), contains_text hay [] fz thr = true) := by
  constructor
  · intro hay ndl fz thr h
    unfold contains_text
    simp [h]
  · intro hay fz thr
    unfold contains_text
    have h0 : normalize_text [] = [] := rfl
    rw [h0]
    have h1 : isSubstring [] (normalize_text hay) = true :=
      (isSubstring_spec _ _).mpr (List.nil_infix)
    simp [h1]

/-- C7 witness: a concrete invocation through the substring branch. -/
theorem C7_witness :
    contains_text "hello world label".data "WORLD".data false (mkRat 99 100) = true :=
  C7_contains_text_substring.1 "hello world label".data "WORLD".data false (mkRat 99 100)
    (by decide)

/-- C9: the brand-name and product-type verifiers only ever report `match` or
`mismatch` — an absent brand or product type is a `mismatch`, never
`not_found` or `warning`. -/
theorem C9_brand_product_status_set (form text : List Char) :
    ((verify_brand_name form text).status = "match"
      ∨ (verify_brand_name form text).status = "mismatch")
  ∧ ((verify_product_type form text).status = "match"
      ∨ (verify_product_type form text).status = "mismatch") := by
  constructor
  · unfold verify_brand_name
    split
    · exact Or.inl rfl
    · exact Or.inr rfl
  · unfold verify_product_type
    split
    · exact Or.inl rfl
    · dsimp only
      split
      · split
        · exact Or.inl rfl
        · exact Or.inr rfl
      · exact Or.inr rfl

/-- C8: the government-warning verifier returns `not_found` when the
upper-cased text lacks the literal phrase; with the phrase present it returns
`match` when at least two of the seven keyword phrases occur as substrings,
and `warning` otherwise. -/
theorem C8_government_warning_cases (text : List Char) :
    (isSubstring "GOVERNMENT WARNING".data (text.map pyToUpper) = false →
        (verify_government_warning text).status = "not_found")
  ∧ (isSubstring "GOVERNMENT WARNING".data (text.map pyToUpper) = true →
      (2 ≤ GOVERNMENT_WARNING_KEYWORDS.countP
            (fun k => isSubstring k (text.map pyToUpper)) →
          (verify_government_warning text).status = "match")
      ∧ (GOVERNMENT_WARNING_KEYWORDS.countP
            (fun k => isSubstring k (text.map pyToUpper)) < 2 →
          (verify_government_warning text).status = "warning")) := by
  constructor
  · intro h
    unfold verify_government_warning
    simp [h]
  · intro h
    constructor
    · intro hc
      unfold verify_government_warning
      simp only [h, if_true]
      rw [if_pos hc]
    · intro hc
      unfold verify_government_warning
      simp only [h, if_true]
      rw [if_neg (by omega)]

/-- C8 witness: phrase plus one more keyword yields `match`. -/
theorem C8_witness :
    (verify_government_warning "GOVERNMENT WARNING: SURGEON GENERAL advice".data).status
      = "match" :=
  ((C8_government_warning_cases "GOVERNMENT WARNING: SURGEON GENERAL advice".data).2
    (by decide)).1 (by decide)

/-- C10: the third keyword contains the second as a substring, so a text
whose upper-casing contains both the warning phrase and
`ACCORDING TO THE SURGEON GENERAL` scores a keyword count of at least 3 and
is reported as `match`. -/
theorem C10_keyword_overlap (text : List Char)
    (hg : isSubstring "GOVERNMENT WARNING".data (text.map pyToUpper) = true)
    (ha : isSubstring "ACCORDING TO THE SURGEON GENERAL".data (text.map pyToUpper) = true) :
    3 ≤ GOVERNMENT_WARNING_KEYWORDS.countP
        (fun k => isSubstring k (text.map pyToUpper))
    ∧ (verify_government_warning text).status = "match" := by
  have hs : isSubstring "SURGEON GENERAL".data (text.map pyToUpper) = true := by
    refine (isSubstring_spec _ _).mpr (List.IsInfix.trans ?_
      ((isSubstring_spec _ _).mp ha))
    exact (isSubstring_spec _ _).mp (by decide)
  have hcount : 3 ≤ GOVERNMENT_WARNING_KEYWORDS.countP
      (fun k => isSubstring k (text.map pyToUpper)) := by
    unfold GOVERNMENT_WARNING_KEYWORDS
    simp only [List.countP_cons, List.countP_nil, hg, hs, ha]
    split_ifs <;> simp_arith
  refine ⟨hcount, ?_⟩
  unfold verify_government_warning
  simp only [hg, if_true]
  rw [if_pos (by omega)]

lemma isEmpty_false {l : List Char} (h : l ≠ []) : l.isEmpty = false := by
  cases l
  · exact absurd rfl h
  · rfl

lemma isEmpty_false_iff (l : List Char) : l.isEmpty = false ↔ l ≠ [] := by
  cases l <;> simp

/-- C1: when brand name, product type and alcohol content are all non-empty,
the orchestrator returns exactly 4 verdicts (net contents empty) or exactly 5
(net contents non-empty), in the fixed field order with the government
warning verdict last. -/
theorem C1_orchestrator_shape (fd : FormData) (text : List Char)
    (hb : fd.brand_name ≠ []) (hp : fd.product_type ≠ []) (ha : fd.alcohol_content ≠ []) :
    (fd.net_contents = [] →
      (verify_label_data fd text).length = 4 ∧
      (verify_label_data fd text).map Verdict.field =
        ["Brand Name", "Product Class/Type", "Alcohol Content", "Government Warning"])
  ∧ (fd.net_contents ≠ [] →
      (verify_label_data fd text).length = 5 ∧
      (verify_label_data fd text).map Verdict.field =
        ["Brand Name", "Product Class/Type", "Alcohol Content", "Net Contents",
         "Government Warning"]) := by
  have hmap := label_fields fd text
  rw [isEmpty_false hb, isEmpty_false hp, isEmpty_false ha] at hmap
  constructor
  · intro hn
    rw [hn] at hmap
    simp only [List.isEmpty_nil, if_true, if_false, Bool.false_eq_true] at hmap
    refine ⟨?_, by simpa using hmap⟩
    have hlen := congrArg List.length hmap
    rw [List.length_map] at hlen
    simpa using hlen
  · intro hn
    rw [isEmpty_false hn] at hmap
    simp at hmap
    refine ⟨?_, by simpa using hmap⟩
    have hlen := congrArg List.length hmap
    rw [List.length_map] at hlen
    simpa using hlen

/-- C1 witness: all four form fields populated, empty recognized text. -/
theorem C1_witness :
    (verify_label_data ⟨"a".data, "b".data, "1".data, "2 ml".data⟩ []).length = 5 ∧
    (verify_label_data ⟨"a".data, "b".data, "1".data, "2 ml".data⟩ []).map Verdict.field =
      ["Brand Name", "Product Class/Type", "Alcohol Content", "Net Contents",
       "Government Warning"] :=
  (C1_orchestrator_shape ⟨"a".data, "b".data, "1".data, "2 ml".data⟩ []
    (by decide) (by decide) (by decide)).2 (by decide)

/-- C3 counterexample: with an empty brand name (and the other mandatory
fields populated) the orchestrator never invokes the brand-name verifier, so
no Brand Name verdict appears — the claim's "unconditionally" is false. -/
theorem C3_counterexample :
    (verify_label_data ⟨[], "Whiskey".data, "45".data, []⟩ []).map Verdict.field
      = ["Product Class/Type", "Alcohol Content", "Government Warning"]
  ∧ ¬ ∃ v ∈ verify_label_data ⟨[], "Whiskey".data, "45".data, []⟩ [],
      v.field = "Brand Name" := by decide

/-- C3 amended: each of the brand-name, product-type and alcohol-content
verifiers is invoked exactly when its form value is non-empty — the returned
list contains a verdict for the field iff the corresponding value is
non-empty (so it does contain all three whenever all three are populated). -/
theorem C3_amended_guarded (fd : FormData) (text : List Char) :
    ((∃ v ∈ verify_label_data fd text, v.field = "Brand Name")
        ↔ fd.brand_name ≠ [])
  ∧ ((∃ v ∈ verify_label_data fd text, v.field = "Product Class/Type")
        ↔ fd.product_type ≠ [])
  ∧ ((∃ v ∈ verify_label_data fd text, v.field = "Alcohol Content")
        ↔ fd.alcohol_content ≠ []) := by
  have key : ∀ X : String, (∃ v ∈ verify_label_data fd text, v.field = X) ↔
      X ∈ (verify_label_data fd text).map Verdict.field := fun X => List.mem_map.symm
  refine ⟨?_, ?_, ?_⟩ <;> rw [key, label_fields] <;>
    cases hb : fd.brand_name.isEmpty <;> cases hp : fd.product_type.isEmpty <;>
    cases ha : fd.alcohol_content.isEmpty <;> cases hn : fd.net_contents.isEmpty <;>
    simp only [← isEmpty_false_iff, hb, hp, ha, hn] <;> decide

/-- C3 amended witness: with a non-empty brand name a Brand Name verdict is
present. -/
theorem C3_amended_witness :
    ∃ v ∈ verify_label_data ⟨"a".data, "b".data, "1".data, []⟩ [],
      v.field = "Brand Name" :=
  (C3_amended_guarded ⟨"a".data, "b".data, "1".data, []⟩ []).1.mpr (by decide)

/-- C4: the net-contents verifier is skipped (returns `None`, and the
orchestrator's list has no Net Contents entry) for an empty form value, and
for a non-empty form value it returns a verdict whose status is `match` or
`not_found` — never `mismatch`. -/
theorem C4_net_contents_statuses :
    (∀ text, verify_net_contents [] text = none)
  ∧ (∀ form text, form ≠ [] →
      ∃ v, verify_net_contents form text = some v
        ∧ (v.status = "match" ∨ v.status = "not_found"))
  ∧ (∀ (fd : FormData) (text : List Char), fd.net_contents = [] →
      "Net Contents" ∉ (verify_label_data fd text).map Verdict.field) := by
  refine ⟨fun text => net_none text, ?_, ?_⟩
  · intro form text h
    obtain ⟨s, hs, hv⟩ := net_some_of_ne form text (isEmpty_false h)
    exact ⟨⟨"Net Contents", s⟩, hs, hv⟩
  · intro fd text hn hmem
    rw [label_fields, hn] at hmem
    revert hmem
    cases hb : fd.brand_name.isEmpty <;> cases hp : fd.product_type.isEmpty <;>
      cases ha : fd.alcohol_content.isEmpty <;> decide

/-- C4 witness: a concrete non-empty form value against empty text. -/
theorem C4_witness :
    ∃ v, verify_net_contents "750 ml".data [] = some v
      ∧ (v.status = "match" ∨ v.status = "not_found") :=
  C4_net_contents_statuses.2.1 "750 ml".data [] (by decide)

/-- The code's tolerance test, restated with standard rational operations. -/
lemma tol_any_iff (v : ℚ) (l : List ℚ) :
    l.any (fun p => decide (qAbs (qSub v p) ≤ mkRat 1 2)) = true ↔
      ∃ p ∈ l, |v - p| ≤ 1 / 2 := by
  have h12 : (mkRat 1 2 : ℚ) = 1 / 2 := by
    rw [Rat.mkRat_eq_div]; norm_num
  simp [List.any_eq_true, qAbs_eq, qSub_eq, h12]

/-- C2: `verify_alcohol_content` always returns one of the three statuses and
never raises: an unparsable form value gives `not_found`; otherwise `match`
iff some extracted percentage is within absolute tolerance 0.5, `mismatch`
when percentages were extracted but none is within tolerance, and `not_found`
when none were extracted.  In particular `45` vs `45% Alc./Vol.` is `match`,
`45` vs `40% Alc./Vol.` is `mismatch`, and the non-numeric form value `abc`
gives `not_found`. -/
theorem C2_alcohol_trichotomy :
    (∀ form text,
        (verify_alcohol_content form text).status = "match"
      ∨ (verify_alcohol_content form text).status = "mismatch"
      ∨ (verify_alcohol_content form text).status = "not_found")
  ∧ (∀ form text, pyFloat form = none →
      (verify_alcohol_content form text).status = "not_found")
  ∧ (∀ form text v, pyFloat form = some v →
      ((∃ p ∈ foundPercentages text, |v - p| ≤ 1 / 2) →
        (verify_alcohol_content form text).status = "match")
      ∧ ((¬ ∃ p ∈ foundPercentages text, |v - p| ≤ 1 / 2) →
          foundPercentages text ≠ [] →
          (verify_alcohol_content form text).status = "mismatch")
      ∧ (foundPercentages text = [] →
          (verify_alcohol_content form text).status = "not_found"))
  ∧ (verify_alcohol_content "45".data "45% Alc./Vol.".data).status = "match"
  ∧ (verify_alcohol_content "45".data "40% Alc./Vol.".data).status = "mismatch"
  ∧ (verify_alcohol_content "abc".data "45% Alc./Vol.".data).status = "not_found" := by
  refine ⟨?_, ?_, ?_, by decide, by decide, by decide⟩
  · intro form text
    unfold verify_alcohol_content
    split
    · exact Or.inr (Or.inr rfl)
    · dsimp only
      split
      · exact Or.inl rfl
      · split
        · exact Or.inr (Or.inr rfl)
        · exact Or.inr (Or.inl rfl)
  · intro form text h
    unfold verify_alcohol_content
    rw [h]
  · intro form text v h
    unfold verify_alcohol_content
    rw [h]
    dsimp only
    refine ⟨?_, ?_, ?_⟩
    · intro hex
      rw [if_pos ((tol_any_iff v (foundPercentages text)).mpr hex)]
    · intro hnex hne
      rw [if_neg fun hc => hnex ((tol_any_iff v (foundPercentages text)).mp hc)]
      rw [if_neg fun hc => hne (List.isEmpty_iff.mp hc)]
    · intro he
      rw [he]
      simp

/-- C2 witness: the parse-failure branch at a concrete input. -/
theorem C2_witness :
    (verify_alcohol_content "abc".data "no number here".data).status = "not_found" :=
  C2_alcohol_trichotomy.2.1 "abc".data "no number here".data (by decide)

/-- C5 counterexample: for the two-word form value `chardonnay extra` against
the text `chardonnay`, the fuzzy check at threshold 0.75 fails and the
claim's partial-credit rule is satisfied (1 of 2 words of length > 3 occurs,
which is at least half), yet the code returns `mismatch`: the fallback only
runs when the form value has more than two words. -/
theorem C5_counterexample :
    contains_text "chardonnay".data "chardonnay extra".data true (mkRat 3 4) = false
  ∧ 2 * (pySplit ("chardonnay extra".data.map pyToLower)).countP
        (fun word => decide (3 < word.length)
          && isSubstring word (normalize_text "chardonnay".data))
      ≥ (pySplit ("chardonnay extra".data.map pyToLower)).length
  ∧ (verify_product_type "chardonnay extra".data "chardonnay".data).status
      = "mismatch" := by decide

/-- C5 amended: when the fuzzy containment check at threshold 0.75 fails,
`verify_product_type` returns `match` iff the form value splits into more
than two words and the number of its words of length greater than 3 occurring
as substrings of the normalized text is at least half the word count rounded
down (integer division); otherwise it returns `mismatch`. -/
theorem C5_partial_credit (form_type text : List Char)
    (hfz : contains_text text form_type true (mkRat 3 4) = false) :
    (verify_product_type form_type text).status =
      (if 2 < (pySplit (form_type.map pyToLower)).length ∧
          (pySplit (form_type.map pyToLower)).length / 2 ≤
            (pySplit (form_type.map pyToLower)).countP (fun word =>
              decide (3 < word.length) && isSubstring word (normalize_text text))
       then "match" else "mismatch") := by
  unfold verify_product_type
  rw [hfz]
  simp only [Bool.false_eq_true, if_false]
  split
  case isTrue h =>
    split
    case isTrue h2 => rw [if_pos ⟨h, h2⟩]
    case isFalse h2 => rw [if_neg fun hc => h2 hc.2]
  case isFalse h => rw [if_neg fun hc => h hc.1]

/-- C5 amended witness: the counterexample input evaluated through the
amended rule gives `mismatch`. -/
theorem C5_witness :
    (verify_product_type "chardonnay extra".data "chardonnay".data).status = "mismatch" := by
  rw [C5_partial_credit "chardonnay extra".data "chardonnay".data (by decide)]
  decide

/-- Every whitespace character of the list is a plain space. -/
def WsOnly (l : List Char) : Prop := ∀ c ∈ l, pyIsSpace c = true → c = ' '

/-- No two adjacent whitespace characters. -/
def NoAdj (l : List Char) : Prop :=
  List.Chain' (fun a b => ¬(pyIsSpace a = true ∧ pyIsSpace b = true)) l

lemma collapseAux_cons_ws_false {a : Char} {as : List Char} (h : pyIsSpace a = true) :
    collapseAux false (a :: as) = ' ' :: collapseAux true as := by
  simp [collapseAux, h]

lemma collapseAux_cons_ws_true {a : Char} {as : List Char} (h : pyIsSpace a = true) :
    collapseAux true (a :: as) = collapseAux true as := by
  simp [collapseAux, h]

lemma collapseAux_cons_not_ws {prev : Bool} {a : Char} {as : List Char}
    (h : pyIsSpace a = false) :
    collapseAux prev (a :: as) = a :: collapseAux false as := by
  simp [collapseAux, h]

lemma mem_collapseAux {c : Char} :
    ∀ {prev : Bool} {l : List Char}, c ∈ collapseAux prev l →
      (c ∈ l ∧ pyIsSpace c = false) ∨ c = ' ' := by
  intro prev l
  induction l generalizing prev with
  | nil => intro h; simp [collapseAux] at h
  | cons a as ih =>
    intro h
    cases hws : pyIsSpace a
    · rw [collapseAux_cons_not_ws hws] at h
      rcases List.mem_cons.mp h with h | h
      · subst h
        exact Or.inl ⟨List.mem_cons_self _ _, hws⟩
      · exact (ih h).imp (fun hp => ⟨List.mem_cons_of_mem _ hp.1, hp.2⟩) id
    · cases prev
      · rw [collapseAux_cons_ws_false hws] at h
        rcases List.mem_cons.mp h with h | h
        · exact Or.inr h
        · exact (ih h).imp (fun hp => ⟨List.mem_cons_of_mem _ hp.1, hp.2⟩) id
      · rw [collapseAux_cons_ws_true hws] at h
        exact (ih h).imp (fun hp => ⟨List.mem_cons_of_mem _ hp.1, hp.2⟩) id

lemma collapseAux_wsOnly (prev : Bool) (l : List Char) : WsOnly (collapseAux prev l) := by
  intro c hc hws
  rcases mem_collapseAux hc with ⟨-, hf⟩ | h
  · rw [hws] at hf; cases hf
  · exact h

lemma collapseAux_true_head (l : List Char) :
    ∀ c, (collapseAux true l).head? = some c → pyIsSpace c = false := by
  induction l with
  | nil => intro c hc; simp [collapseAux] at hc
  | cons a as ih =>
    intro c hc
    cases hws : pyIsSpace a
    · rw [collapseAux_cons_not_ws hws, List.head?_cons, Option.some_inj] at hc
      rw [← hc]
      exact hws
    · rw [collapseAux_cons_ws_true hws] at hc
      exact ih c hc

lemma collapseAux_noAdj (prev : Bool) (l : List Char) : NoAdj (collapseAux prev l) := by
  induction l generalizing prev with
  | nil => simp [collapseAux, NoAdj]
  | cons a as ih =>
    cases hws : pyIsSpace a
    · rw [NoAdj, collapseAux_cons_not_ws hws]
      refine List.chain'_cons'.mpr ⟨?_, ih false⟩
      intro b _
      rw [hws]
      simp
    · cases prev
      · rw [NoAdj, collapseAux_cons_ws_false hws]
        refine List.chain'_cons'.mpr ⟨?_, ih true⟩
        intro b hb
        rw [collapseAux_true_head as b hb]
        simp
      · rw [NoAdj, collapseAux_cons_ws_true hws]
        exact ih true

lemma collapseAux_fix (l : List Char) (hws : WsOnly l) (hadj : NoAdj l) :
    collapseAux false l = l
      ∧ ((∀ c, l.head? = some c → pyIsSpace c = false) → collapseAux true l = l) := by
  induction l with
  | nil => simp [collapseAux]
  | cons a as ih =>
    have hws' : WsOnly as := fun c hc => hws c (List.mem_cons_of_mem _ hc)
    have hpair := List.chain'_cons'.mp hadj
    have ihs := ih hws' hpair.2
    cases h : pyIsSpace a
    · refine ⟨?_, fun _ => ?_⟩
      · rw [collapseAux_cons_not_ws h, ihs.1]
      · rw [collapseAux_cons_not_ws h, ihs.1]
    · have ha : a = ' ' := hws a (List.mem_cons_self _ _) h
      have hdhead : ∀ c, as.head? = some c → pyIsSpace c = false := by
        intro c hc
        cases hcs : pyIsSpace c
        · rfl
        · exact absurd ⟨h, hcs⟩ (hpair.1 c hc)
      refine ⟨?_, fun hhead => ?_⟩
      · rw [collapseAux_cons_ws_false h, ihs.2 hdhead, ha]
      · exact absurd (hhead a rfl) (by rw [h]; simp)

lemma dropWhile_head_false (p : Char → Bool) (l : List Char) :
    ∀ c, ((l.dropWhile p).head? = some c) → p c = false := by
  induction l with
  | nil => intro c hc; simp at hc
  | cons a as ih =>
    intro c hc
    cases h : p a
    · rw [List.dropWhile_cons, h, if_neg (by simp), List.head?_cons,
        Option.some_inj] at hc
      rw [← hc]
      exact h
    · rw [List.dropWhile_cons, h, if_pos rfl] at hc
      exact ih c hc

lemma dropWhile_id_of_head (p : Char → Bool) (l : List Char)
    (h : ∀ c, l.head? = some c → p c = false) : l.dropWhile p = l := by
  cases l with
  | nil => rfl
  | cons a as =>
    rw [List.dropWhile_cons, h a rfl, if_neg (by simp)]

lemma pyStrip_prefix_dropWhile (l : List Char) :
    pyStrip l <+: l.dropWhile pyIsSpace := by
  rw [← List.reverse_suffix]
  unfold pyStrip
  rw [List.reverse_reverse]
  exact List.dropWhile_suffix pyIsSpace

lemma pyStrip_contig (l : List Char) : pyStrip l <:+: l :=
  (pyStrip_prefix_dropWhile l).isInfix.trans (List.dropWhile_suffix pyIsSpace).isInfix

lemma pyStrip_head (l : List Char) :
    ∀ c, (pyStrip l).head? = some c → pyIsSpace c = false := by
  intro c hc
  obtain ⟨t, ht⟩ := pyStrip_prefix_dropWhile l
  refine dropWhile_head_false pyIsSpace l c ?_
  rw [← ht]
  cases hB : pyStrip l with
  | nil => rw [hB] at hc; cases hc
  | cons x xs =>
    rw [hB] at hc
    simp only [List.head?_cons, Option.some_inj] at hc
    subst hc
    simp

lemma pyStrip_getLast (l : List Char) :
    ∀ c, (pyStrip l).getLast? = some c → pyIsSpace c = false := by
  intro c hc
  unfold pyStrip at hc
  rw [List.getLast?_reverse] at hc
  exact dropWhile_head_false pyIsSpace _ c hc

lemma pyStrip_id (l : List Char)
    (h1 : ∀ c, l.head? = some c → pyIsSpace c = false)
    (h2 : ∀ c, l.getLast? = some c → pyIsSpace c = false) : pyStrip l = l := by
  unfold pyStrip
  rw [dropWhile_id_of_head pyIsSpace l h1]
  rw [dropWhile_id_of_head pyIsSpace l.reverse
    (by intro c hc; rw [List.head?_reverse] at hc; exact h2 c hc)]
  exact List.reverse_reverse l

lemma map_id_of {f : Char → Char} {l : List Char} (h : ∀ c ∈ l, f c = c) :
    l.map f = l := by
  induction l with
  | nil => rfl
  | cons a as ih =>
    rw [List.map_cons, h a (List.mem_cons_self _ _),
      ih fun c hc => h c (List.mem_cons_of_mem _ hc)]

lemma kept_notUpper {c : Char} (h : isKeptChar c = true) :
    ¬(65 ≤ c.toNat ∧ c.toNat ≤ 90) := by
  intro hc
  unfold isKeptChar pyIsSpace at h
  simp only [Bool.or_eq_true, decide_eq_true_eq] at h
  rcases h with ((h | h) | h) | h
  · omega
  · omega
  · rcases h with h | h | h | h | h | h <;> subst h <;> revert hc <;> decide
  · rcases h with h | h | h | h <;> subst h <;> revert hc <;> decide

lemma kept_toLower {c : Char} (h : isKeptChar c = true) : pyToLower c = c := by
  unfold pyToLower
  rw [if_neg (kept_notUpper h)]

lemma normalize_eq_pipeline (l : List Char) :
    normalize_text l = pyStrip (List.filter isKeptChar (collapse (l.map pyToLower))) := by
  unfold normalize_text
  split
  case isTrue h => subst h; rfl
  case isFalse => rfl

lemma norm_kept {c : Char} {l : List Char} (h : c ∈ normalize_text l) :
    isKeptChar c = true := by
  rw [normalize_eq_pipeline] at h
  exact (List.mem_filter.mp ((pyStrip_contig _).subset h)).2

/-- C6 counterexample: removing the `!` of `a ! b` merges two single spaces
into a double space, which a second normalization collapses — so
`normalize_text` is not idempotent. -/
theorem C6_counterexample :
    normalize_text (normalize_text "a ! b".data) ≠ normalize_text "a ! b".data := by
  decide

/-- C6 amended: idempotence holds from the second application on — the twice
normalized string is a fixed point of `normalize_text` (a single application
is not idempotent, see the counterexample). -/
theorem C6_normalize_eventually_idempotent (s : List Char) :
    normalize_text (normalize_text (normalize_text s)) =
      normalize_text (normalize_text s) := by
  set t := normalize_text s with ht
  have htk : ∀ c ∈ t, isKeptChar c = true := fun c hc => norm_kept hc
  have hlt : t.map pyToLower = t := map_id_of fun c hc => kept_toLower (htk c hc)
  have hCt_kept : ∀ c ∈ collapse t, isKeptChar c = true := by
    intro c hc
    rcases mem_collapseAux hc with ⟨h, -⟩ | h
    · exact htk c h
    · rw [h]; decide
  have hu : normalize_text t = pyStrip (collapse t) := by
    rw [normalize_eq_pipeline, hlt, List.filter_eq_self.mpr hCt_kept]
  set u := normalize_text t with hudef
  have huContig : u <:+: collapse t := by rw [hu]; exact pyStrip_contig _
  have hu_ws : WsOnly u := fun c hc hws =>
    collapseAux_wsOnly false t c (huContig.subset hc) hws
  have hu_adj : NoAdj u := List.Chain'.infix (collapseAux_noAdj false t) huContig
  have hu_kept : ∀ c ∈ u, isKeptChar c = true := fun c hc => hCt_kept c (huContig.subset hc)
  have hu_head : ∀ c, u.head? = some c → pyIsSpace c = false := by
    rw [hu]; exact pyStrip_head _
  have hu_last : ∀ c, u.getLast? = some c → pyIsSpace c = false := by
    rw [hu]; exact pyStrip_getLast _
  show normalize_text u = u
  rw [normalize_eq_pipeline]
  rw [map_id_of fun c hc => kept_toLower (hu_kept c hc)]
  rw [show collapse u = u from (collapseAux_fix u hu_ws hu_adj).1]
  rw [List.filter_eq_self.mpr hu_kept]
  exact pyStrip_id u hu_head hu_last

/-- C10 witness: a concrete text containing both phrases. -/
theorem C10_witness :
    3 ≤ GOVERNMENT_WARNING_KEYWORDS.countP
        (fun k => isSubstring k ("GOVERNMENT WARNING ACCORDING TO THE SURGEON GENERAL".data.map
          pyToUpper))
    ∧ (verify_government_warning
        "GOVERNMENT WARNING ACCORDING TO THE SURGEON GENERAL".data).status = "match" :=
  C10_keyword_overlap "GOVERNMENT WARNING ACCORDING TO THE SURGEON GENERAL".data
    (by decide) (by decide)

end LabelApp
